import Mathlib

/-!
Shallow embedding of `twisted/python/lockfile.py` (a filesystem-based
interprocess mutex) and proofs about its specification.

The module has three layers, all embedded here:

* the marker primitives: on POSIX, `os.symlink` / `os.readlink` /
  `os.remove` acting on symbolic links (`posixSymlink`, `posixReadlink`,
  `posixRmlink` over `PosixFS`); on Windows, the emulated `symlink` /
  `readlink` / `rmlink` working with a directory containing a `symlink`
  file (`Win.symlink`, `Win.readlink`, `Win.rmlink` over `WinFS`);
* the lock state machine `FilesystemLock.lock` / `FilesystemLock.unlock`,
  embedded as a fuel-indexed loop `lockLoop` over an abstract environment
  `Env σ` that supplies the outcome of every primitive call (so that racy
  schedules, where the filesystem changes between calls, are expressible);
* the module-level helper `isLocked`.

Exceptions are modelled by the `Exc` type; an `OSError` / `IOError`
carries its `errno`.  Fuel models the unbounded retry loop of `lock`:
`LockResult.outOfFuel` means the trace was not long enough to decide the
call, never that the code returned.
-/

namespace Lockfile

/-- POSIX errno value `EPERM` (operation not permitted). -/
def EPERM : Nat := 1

/-- POSIX errno value `ENOENT` (no such file or directory). -/
def ENOENT : Nat := 2

/-- POSIX errno value `ESRCH` (no such process). -/
def ESRCH : Nat := 3

/-- POSIX errno value `EIO` (input/output error). -/
def EIO : Nat := 5

/-- POSIX errno value `EACCES` (permission denied). -/
def EACCES : Nat := 13

/-- POSIX errno value `EEXIST` (file exists). -/
def EEXIST : Nat := 17

/-- Python exceptions raised by the module.  `osError e` stands for an
`OSError` (or `IOError`) with `errno = e`; `notOwner` is the
`ValueError("Lock ... not owned by this process")` raised by `unlock`;
`intParse` is the `ValueError` raised by `int()` on a non-numeric payload;
`timeout` is the `TimeoutError("Unable to get a lock.")` raised by the
emulated `symlink`. -/
inductive Exc where
  | osError (errno : Nat)
  | notOwner
  | intParse
  | timeout
deriving DecidableEq

/-- Ghost events recorded by one run of the `lock` retry loop, used to
state which branch was taken on each iteration:
`rmOk` = this handle successfully deleted a stale marker (`rmlink`
succeeded, `clean` set to `False`); `rmVanished` = `rmlink` failed with
`ENOENT` (someone else reclaimed first); `readVanished` = `readlink`
failed with `ENOENT` (the marker vanished between `symlink` and
`readlink`). -/
inductive Event where
  | rmOk
  | rmVanished
  | readVanished
deriving DecidableEq

/-- Result of one call to `FilesystemLock.lock`: returned `True`,
returned `False`, raised an exception, or needed more loop iterations
than the supplied fuel. -/
inductive LockResult where
  | acquired
  | notAcquired
  | raised (e : Exc)
  | outOfFuel
deriving DecidableEq

/-- Result of one call to `FilesystemLock.unlock` (which returns `None`
on success). -/
inductive UnlockResult where
  | ok
  | raised (e : Exc)
deriving DecidableEq

/-- Python `int()` applied to the marker payloads used by this module
(decimal process-id strings): returns the parsed number on an all-digit
nonempty string and fails (a `ValueError`) otherwise. -/
def pyInt (s : String) : Option Nat :=
  let cs := s.toList
  if cs ≠ [] ∧ cs.all Char.isDigit then
    some (cs.foldl (fun n c => 10 * n + (c.toNat - 48)) 0)
  else none

/-- One `FilesystemLock` handle: its `name` and the instance attributes,
with the class-level defaults `locked = False` and `clean = None`. -/
structure FilesystemLock where
  name : String
  locked : Bool := false
  clean : Option Bool := none
deriving DecidableEq

/-- Abstract environment supplying the outcome of each primitive call
made by the lock state machine, together with the next environment state.
For each operation, `none` / `.ok` means the call returned normally and
`some e` / `.error e` means it raised an `OSError` (or `IOError`) with
`errno = e`.  The state `σ` lets outcomes depend on the history of calls,
which is how concurrent interference by other processes is modelled. -/
structure Env (σ : Type) where
  symlink : String → String → σ → Option Nat × σ
  readlink : String → σ → Except Nat String × σ
  kill : Nat → σ → Option Nat × σ
  rmlink : String → σ → Option Nat × σ

/-- The retry loop of `FilesystemLock.lock`, translated branch by branch
from the source.  `w` is the module-level `_windows` flag, `ka` is
whether `kill` is available (`kill is not None`), `mypid` is
`os.getpid()`, and `clean` is the loop-local `clean` variable (initially
`True`).  Returns the outcome, the handle after the call (`self.locked`
and `self.clean` are assigned only on the success path, exactly as in the
source), the final environment state, and the ghost `Event` trace. -/
def lockLoop {σ : Type} (w ka : Bool) (E : Env σ) (mypid : Nat)
    (self : FilesystemLock) :
    Nat → Bool → σ → LockResult × FilesystemLock × σ × List Event
  | 0, _, s => (.outOfFuel, self, s, [])
  | fuel + 1, clean, s =>
    match E.symlink (toString mypid) self.name s with
    | (none, s1) =>
      (.acquired, { self with locked := true, clean := some clean }, s1, [])
    | (some e, s1) =>
      if w ∧ (e = EACCES ∨ e = EIO) then (.notAcquired, self, s1, [])
      else if e = EEXIST then
        match E.readlink self.name s1 with
        | (.error re, s2) =>
          if re = ENOENT then
            let r := lockLoop w ka E mypid self fuel clean s2
            (r.1, r.2.1, r.2.2.1, .readVanished :: r.2.2.2)
          else if w ∧ re = EACCES then (.notAcquired, self, s2, [])
          else (.raised (.osError re), self, s2, [])
        | (.ok pidStr, s2) =>
          if ka then
            match pyInt pidStr with
            | none => (.raised .intParse, self, s2, [])
            | some pid =>
              match E.kill pid s2 with
              | (none, s3) => (.notAcquired, self, s3, [])
              | (some ke, s3) =>
                if ke = ESRCH then
                  match E.rmlink self.name s3 with
                  | (none, s4) =>
                    let r := lockLoop w ka E mypid self fuel false s4
                    (r.1, r.2.1, r.2.2.1, .rmOk :: r.2.2.2)
                  | (some rme, s4) =>
                    if rme = ENOENT then
                      let r := lockLoop w ka E mypid self fuel clean s4
                      (r.1, r.2.1, r.2.2.1, .rmVanished :: r.2.2.2)
                    else (.raised (.osError rme), self, s4, [])
                else (.raised (.osError ke), self, s3, [])
          else (.notAcquired, self, s2, [])
      else (.raised (.osError e), self, s1, [])

/-- `FilesystemLock.lock`: enters the retry loop with the loop-local
`clean = True`. -/
def FilesystemLock.lock {σ : Type} (w ka : Bool) (E : Env σ) (mypid : Nat)
    (fuel : Nat) (self : FilesystemLock) (s : σ) :
    LockResult × FilesystemLock × σ × List Event :=
  lockLoop w ka E mypid self fuel true s

/-- `FilesystemLock.unlock`: `readlink` the marker, raise `ValueError` if
`int(pid) != os.getpid()`, otherwise `rmlink` it and set
`self.locked = False`. -/
def FilesystemLock.unlock {σ : Type} (E : Env σ) (mypid : Nat)
    (self : FilesystemLock) (s : σ) : UnlockResult × FilesystemLock × σ :=
  match E.readlink self.name s with
  | (.error re, s1) => (.raised (.osError re), self, s1)
  | (.ok pidStr, s1) =>
    match pyInt pidStr with
    | none => (.raised .intParse, self, s1)
    | some pid =>
      if pid ≠ mypid then (.raised .notOwner, self, s1)
      else
        match E.rmlink self.name s1 with
        | (some re, s2) => (.raised (.osError re), self, s2)
        | (none, s2) => (.ok, { self with locked := false }, s2)

/-- Result of the module-level `isLocked` helper. -/
inductive QueryResult where
  | held (b : Bool)
  | raised (e : Exc)
  | outOfFuel
deriving DecidableEq

/-- Module-level `isLocked(name)`: build a fresh `FilesystemLock`, call
`lock` on it inside `try/finally` (the `finally` calls `unlock` only when
`lock` returned `True`; an exception from `lock` or `unlock` propagates),
and return `not result`. -/
def isLocked {σ : Type} (w ka : Bool) (E : Env σ) (mypid : Nat)
    (fuel : Nat) (name : String) (s : σ) : QueryResult × σ :=
  let l : FilesystemLock := { name := name }
  match FilesystemLock.lock w ka E mypid fuel l s with
  | (.acquired, h, s1, _) =>
    match FilesystemLock.unlock E mypid h s1 with
    | (.ok, _, s2) => (.held false, s2)
    | (.raised e, _, s2) => (.raised e, s2)
  | (.notAcquired, _, s1, _) => (.held true, s1)
  | (.raised e, _, s1, _) => (.raised e, s1)
  | (.outOfFuel, _, s1, _) => (.outOfFuel, s1)

/-- Native (POSIX) filesystem state: which symbolic link, if any, exists
at each path, and its target text. -/
def PosixFS : Type := String → Option String

/-- POSIX `symlink(value, name)` (`os.symlink`): atomically creates the
link, raising `OSError(EEXIST)` if `name` already exists. -/
def posixSymlink (value name : String) (s : PosixFS) : Option Nat × PosixFS :=
  match s name with
  | some _ => (some EEXIST, s)
  | none => (none, fun n => if n = name then some value else s n)

/-- POSIX `readlink(name)` (`os.readlink`): returns the target text,
raising `OSError(ENOENT)` if the link does not exist. -/
def posixReadlink (name : String) (s : PosixFS) : Except Nat String :=
  match s name with
  | some v => .ok v
  | none => .error ENOENT

/-- POSIX `rmlink(name)` (`os.remove`): removes the link, raising
`OSError(ENOENT)` if it does not exist. -/
def posixRmlink (name : String) (s : PosixFS) : Option Nat × PosixFS :=
  match s name with
  | some _ => (none, fun n => if n = name then none else s n)
  | none => (some ENOENT, s)

/-- The POSIX instantiation of the abstract environment, for a process
running with no concurrent interference.  `aliveRes pid` is the outcome
of `os.kill(pid, 0)`: `none` if the probe returns (process alive), `some
errno` if it raises (`ESRCH` = dead, `EPERM` = alive but not ours). -/
def posixEnv (aliveRes : Nat → Option Nat) : Env PosixFS where
  symlink := posixSymlink
  readlink := fun n s => (posixReadlink n s, s)
  kill := fun pid s => (aliveRes pid, s)
  rmlink := posixRmlink

/-- The empty POSIX filesystem: no links exist. -/
def posixEmpty : PosixFS := fun _ => none

/-- Windows filesystem state for the emulated marker implementation:
which directories exist and which files exist (with their contents). -/
structure WinFS where
  dirs : String → Bool
  files : String → Option String

/-- The empty Windows filesystem. -/
def winEmpty : WinFS := { dirs := fun _ => false, files := fun _ => none }

/-- Path of the payload file inside an emulated marker directory,
`os.path.join(filename, 'symlink')`. -/
def symPath (p : String) : String := p ++ "\\symlink"

namespace Win

/-- Emulated `readlink(filename)`: open `filename\symlink` and return
its contents; a missing file maps to `OSError(ENOENT)` (the source
converts the `IOError` to `OSError` with the same errno). -/
def readlink (filename : String) (fs : WinFS) : Except Nat String :=
  match fs.files (symPath filename) with
  | some v => .ok v
  | none => .error ENOENT

/-- Emulated `rmlink(filename)`: `os.remove(filename\symlink)` then
`os.rmdir(filename)`; either call raises `OSError(ENOENT)` when its
target is missing. -/
def rmlink (filename : String) (fs : WinFS) : Option Nat × WinFS :=
  match fs.files (symPath filename) with
  | none => (some ENOENT, fs)
  | some _ =>
    let fs1 : WinFS :=
      { fs with files := fun f => if f = symPath filename then none else fs.files f }
    if fs1.dirs filename then
      (none, { fs1 with dirs := fun d => if d = filename then false else fs1.dirs d })
    else (some ENOENT, fs1)

/-- The Python-3 read-back loop of the emulated `symlink`: `readSeq k` is
what the `k`-th re-read of the just-written payload returns (modelling
the Windows write-visibility delay).  The source loops `while readValue
!= value`, counting iterations and giving up once `iterations > 63360`;
a read at index `k ≤ 63359` that returns `value` exits the loop, and the
63361-st read always hits the ceiling.  Returns `true` on success and
`false` on timeout. -/
def readbackLoop (value : String) (readSeq : Nat → String) :
    Nat → Nat → Bool
  | 0, _ => false
  | fuel + 1, idx =>
    if readSeq idx = value then true
    else readbackLoop value readSeq fuel (idx + 1)

/-- Emulated `symlink(value, filename)`: make a uniquely-named temporary
directory `filename + "." + unique() + ".newlink"`, write the payload
into a `symlink` file inside it, run the bounded read-back loop, then
atomically `rename` the directory to `filename` (`rename` raises if the
destination exists).  On read-back timeout the source removes only the
payload file (best effort) and raises `TimeoutError`; on `rename` failure
it removes the payload file and the temporary directory and re-raises. -/
def symlink (value filename uniq : String) (readSeq : Nat → String)
    (fs : WinFS) : Option Exc × WinFS :=
  let newlinkname := filename ++ "." ++ uniq ++ ".newlink"
  let newvalname := symPath newlinkname
  if fs.dirs newlinkname ∨ (fs.files newlinkname).isSome then
    (some (.osError EEXIST), fs)
  else
    let fs2 : WinFS :=
      { dirs := fun d => if d = newlinkname then true else fs.dirs d,
        files := fun f => if f = newvalname then some value else fs.files f }
    if value = "" ∨ readbackLoop value readSeq 63360 0 then
      if fs2.dirs filename ∨ (fs2.files filename).isSome then
        (some (.osError EEXIST),
         { dirs := fun d => if d = newlinkname then false else fs2.dirs d,
           files := fun f => if f = newvalname then none else fs2.files f })
      else
        (none,
         { dirs := fun d =>
             if d = newlinkname then false
             else if d = filename then true else fs2.dirs d,
           files := fun f =>
             if f = newvalname then none
             else if f = symPath filename then some value else fs2.files f })
    else
      (some .timeout,
       { fs2 with files := fun f => if f = newvalname then none else fs2.files f })

end Win

/-!
Interleaving model for `N` processes racing to `lock` a fresh name.

In this scenario every caller is a live process and the name starts
absent, so each caller's `lock` finishes within one iteration of the
retry loop: the `symlink` attempt is the only filesystem mutation, and a
caller that loses it reads the winner's pid (`readlink`), probes it with
`kill` (alive, no exception) and returns `False` — see
`lock_fresh_success` and `lock_fresh_held_alive` below, which check those
two outcomes against `lockLoop` itself.  We therefore model each process
as a three-phase program over the shared marker slot, with an arbitrary
scheduler choosing which process performs its next atomic step.
-/

namespace Race

/-- Program counter of one racing process: before its `symlink` attempt,
between a failed attempt and its `return False`, or finished with the
boolean its `lock` call returned. -/
inductive PC where
  | start
  | probing
  | done (res : Bool)
deriving DecidableEq

/-- Shared state of the race: the marker slot for the contested name
(holding the owner's pid when present) and each process's program
counter. -/
structure State (n : Nat) where
  marker : Option Nat
  pcs : Fin n → PC

/-- One atomic step of process `i`.  From `start`: the `symlink` attempt
either atomically creates the marker (absent case — `lock` returns
`True`) or fails with `EEXIST` (present case — move to `probing`).  From
`probing`: `readlink` the owner's pid, `kill` it (alive, since every
racer is a live process and nothing in this scenario deletes the
marker), and return `False`.  A finished process does nothing. -/
def step {n : Nat} (pids : Fin n → Nat) (st : State n) (i : Fin n) : State n :=
  match st.pcs i with
  | .start =>
    match st.marker with
    | none =>
      { marker := some (pids i),
        pcs := fun j => if j = i then .done true else st.pcs j }
    | some _ => { st with pcs := fun j => if j = i then .probing else st.pcs j }
  | .probing => { st with pcs := fun j => if j = i then .done false else st.pcs j }
  | .done _ => st

/-- Initial state: fresh name (no marker), every process about to call
`lock`. -/
def init (n : Nat) : State n := { marker := none, pcs := fun _ => .start }

/-- Run a schedule: the list gives, in order, which process performs its
next atomic step. -/
def run {n : Nat} (pids : Fin n → Nat) (st : State n) :
    List (Fin n) → State n
  | [] => st
  | i :: rest => run pids (step pids st i) rest

/-- Race invariant: either nobody has moved (marker absent), or exactly
one process has won — the marker holds its pid and it is the only one
whose `lock` returned `True`. -/
def Inv {n : Nat} (pids : Fin n → Nat) (st : State n) : Prop :=
  (st.marker = none ∧ ∀ i, st.pcs i = .start) ∨
  (∃ i, st.marker = some (pids i) ∧ st.pcs i = .done true ∧
    ∀ j, st.pcs j = .done true → j = i)

end Race

def hasRmOk : List Event → Bool
  | [] => false
  | .rmOk :: _ => true
  | _ :: rest => hasRmOk rest


/-- Process ids for the three-process concrete race used by the
verification witnesses. -/
def racePids3 : Fin 3 → Nat := fun i => 100 + i.val

/-- A complete schedule for the three-process race: process 0 wins the
`symlink`, processes 1 and 2 observe the marker and then return `False`. -/
def raceSched3 : List (Fin 3) := [0, 1, 2, 1, 2]

/-- Trivial environment in which the very first `symlink` attempt
succeeds (a free lock with no interference). -/
def envAlwaysFree : Env Unit where
  symlink := fun _ _ _ => (none, ())
  readlink := fun _ _ => (.ok "1", ())
  kill := fun _ _ => (none, ())
  rmlink := fun _ _ => (none, ())

/-- Environment in which the marker exists with payload `"99999"` and the
null-signal probe of its owner raises `OSError(EPERM)` (the owner exists
but belongs to another user). -/
def envHeldEperm : Env Unit where
  symlink := fun _ _ _ => (some EEXIST, ())
  readlink := fun _ _ => (.ok "99999", ())
  kill := fun _ _ => (some EPERM, ())
  rmlink := fun _ _ => (none, ())

/-- Environment in which the marker exists with payload `"7"` and its
recorded owner is dead (a probe would raise `OSError(ESRCH)`). -/
def envHeldDead : Env Unit where
  symlink := fun _ _ _ => (some EEXIST, ())
  readlink := fun _ _ => (.ok "7", ())
  kill := fun _ _ => (some ESRCH, ())
  rmlink := fun _ _ => (none, ())

/-- A POSIX filesystem in which the lock name `"n"` is held with payload
`"7"`. -/
def posixHeld7 : PosixFS := fun n => if n = "n" then some "7" else none

namespace Race

theorem inv_step {n : Nat} (pids : Fin n → Nat) (st : State n) (i : Fin n)
    (h : Inv pids st) : Inv pids (step pids st i) := by
  rcases h with ⟨hm, hall⟩ | ⟨i0, hm, hi0, huniq⟩
  · -- nobody has moved yet: process i creates the marker and wins
    right
    refine ⟨i, ?_, ?_, ?_⟩
    · show (step pids st i).marker = some (pids i)
      simp [step, hall i, hm]
    · show (step pids st i).pcs i = .done true
      simp [step, hall i, hm]
    · intro j hj
      by_cases hji : j = i
      · exact hji
      · exfalso
        have hpj : (step pids st i).pcs j = st.pcs j := by
          simp [step, hall i, hm, hji]
        rw [hpj, hall j] at hj
        exact PC.noConfusion hj
  · -- a winner i0 already exists; its status and uniqueness are preserved
    cases hpc : st.pcs i with
    | done b =>
      have hstep : step pids st i = st := by simp [step, hpc]
      rw [hstep]
      exact Or.inr ⟨i0, hm, hi0, huniq⟩
    | start =>
      have hne : i0 ≠ i := by
        intro he
        rw [← he, hi0] at hpc
        exact PC.noConfusion hpc
      right
      refine ⟨i0, ?_, ?_, ?_⟩
      · show (step pids st i).marker = some (pids i0)
        simp [step, hpc, hm]
      · show (step pids st i).pcs i0 = .done true
        simp [step, hpc, hm, hne, hi0]
      · intro j hj
        by_cases hji : j = i
        · exfalso
          have hpj : (step pids st i).pcs j = .probing := by
            simp [step, hpc, hm, hji]
          rw [hpj] at hj
          exact PC.noConfusion hj
        · have hpj : (step pids st i).pcs j = st.pcs j := by
            simp [step, hpc, hm, hji]
          rw [hpj] at hj
          exact huniq j hj
    | probing =>
      have hne : i0 ≠ i := by
        intro he
        rw [← he, hi0] at hpc
        exact PC.noConfusion hpc
      right
      refine ⟨i0, ?_, ?_, ?_⟩
      · show (step pids st i).marker = some (pids i0)
        simp [step, hpc, hm]
      · show (step pids st i).pcs i0 = .done true
        simp [step, hpc, hne, hi0]
      · intro j hj
        by_cases hji : j = i
        · exfalso
          have hpj : (step pids st i).pcs j = .done false := by
            simp [step, hpc, hji]
          rw [hpj] at hj
          have : false = true := PC.done.inj hj
          exact Bool.noConfusion this
        · have hpj : (step pids st i).pcs j = st.pcs j := by
            simp [step, hpc, hji]
          rw [hpj] at hj
          exact huniq j hj

theorem inv_run {n : Nat} (pids : Fin n → Nat) (st : State n)
    (sched : List (Fin n)) (h : Inv pids st) :
    Inv pids (run pids st sched) := by
  induction sched generalizing st with
  | nil => exact h
  | cons i rest ih => exact ih _ (inv_step pids st i h)

theorem inv_init {n : Nat} (pids : Fin n → Nat) : Inv pids (init n) := by
  left
  exact ⟨rfl, fun _ => rfl⟩

end Race

theorem hasRmOk_iff (evs : List Event) : hasRmOk evs = true ↔ Event.rmOk ∈ evs := by
  induction evs with
  | nil => simp [hasRmOk]
  | cons e rest ih =>
    cases e <;> simp [hasRmOk, ih]

theorem lockLoop_clean {σ : Type} (w ka : Bool) (E : Env σ) (mypid : Nat)
    (self : FilesystemLock) (fuel : Nat) :
    ∀ (c : Bool) (s : σ) (h : FilesystemLock) (s' : σ) (evs : List Event),
      lockLoop w ka E mypid self fuel c s = (.acquired, h, s', evs) →
      h.locked = true ∧ h.clean = some (c && !hasRmOk evs) := by
  induction fuel with
  | zero =>
    intro c s h s' evs hacq
    exact absurd hacq (by simp [lockLoop])
  | succ fuel ih =>
    intro c s h s' evs hacq
    simp only [lockLoop] at hacq
    split at hacq
    · -- symlink succeeded
      simp only [Prod.mk.injEq] at hacq
      obtain ⟨-, h2, -, h4⟩ := hacq
      rw [← h2, ← h4]
      simp [hasRmOk]
    · -- symlink raised
      split at hacq
      · simp at hacq
      · split at hacq
        · -- EEXIST
          split at hacq
          · -- readlink raised
            split at hacq
            · -- ENOENT: retry
              rename_i x re s2 heq hre
              simp only [Prod.mk.injEq] at hacq
              obtain ⟨h1, h2, h3, h4⟩ := hacq
              have hacq' : lockLoop w ka E mypid self fuel c s2 =
                  (.acquired, (lockLoop w ka E mypid self fuel c s2).2.1,
                   (lockLoop w ka E mypid self fuel c s2).2.2.1,
                   (lockLoop w ka E mypid self fuel c s2).2.2.2) := by
                rw [← h1]
              have hres := ih c s2 _ _ _ hacq'
              rw [← h2, ← h4]
              simpa [hasRmOk] using hres
            · split at hacq
              · simp at hacq
              · simp at hacq
          · -- readlink ok
            split at hacq
            · -- kill available
              split at hacq
              · simp at hacq
              · -- pid parsed
                split at hacq
                · simp at hacq
                · split at hacq
                  · -- ESRCH
                    split at hacq
                    · -- rmlink ok: retry unclean
                      rename_i s4 heqrm
                      simp only [Prod.mk.injEq] at hacq
                      obtain ⟨h1, h2, h3, h4⟩ := hacq
                      have hacq' : lockLoop w ka E mypid self fuel false s4 =
                          (.acquired, (lockLoop w ka E mypid self fuel false s4).2.1,
                           (lockLoop w ka E mypid self fuel false s4).2.2.1,
                           (lockLoop w ka E mypid self fuel false s4).2.2.2) := by
                        rw [← h1]
                      have hres := ih false s4 _ _ _ hacq'
                      rw [← h2, ← h4]
                      simpa [hasRmOk] using hres
                    · split at hacq
                      · -- rmlink ENOENT: retry, clean kept
                        rename_i rme s4 heqrm hrm
                        simp only [Prod.mk.injEq] at hacq
                        obtain ⟨h1, h2, h3, h4⟩ := hacq
                        have hacq' : lockLoop w ka E mypid self fuel c s4 =
                            (.acquired, (lockLoop w ka E mypid self fuel c s4).2.1,
                             (lockLoop w ka E mypid self fuel c s4).2.2.1,
                             (lockLoop w ka E mypid self fuel c s4).2.2.2) := by
                          rw [← h1]
                        have hres := ih c s4 _ _ _ hacq'
                        rw [← h2, ← h4]
                        simpa [hasRmOk] using hres
                      · simp at hacq
                  · simp at hacq
            · simp at hacq
        · simp at hacq
theorem lockLoop_frame {σ : Type} (w ka : Bool) (E : Env σ) (mypid : Nat)
    (self : FilesystemLock) (fuel : Nat) :
    ∀ (c : Bool) (s : σ),
      (lockLoop w ka E mypid self fuel c s).1 = .acquired ∨
      (lockLoop w ka E mypid self fuel c s).2.1 = self := by
  induction fuel with
  | zero =>
    intro c s
    right
    rfl
  | succ fuel ih =>
    intro c s
    simp only [lockLoop]
    split
    · left
      rfl
    · split
      · right
        rfl
      · split
        · split
          · split
            · exact ih c _
            · split
              · right
                rfl
              · right
                rfl
          · split
            · split
              · right
                rfl
              · split
                · right
                  rfl
                · split
                  · split
                    · exact ih false _
                    · split
                      · exact ih c _
                      · right
                        rfl
                  · right
                    rfl
            · right
              rfl
        · right
          rfl

theorem readbackLoop_false (value : String) (readSeq : Nat → String)
    (h : ∀ k, readSeq k ≠ value) :
    ∀ (fuel idx : Nat), Win.readbackLoop value readSeq fuel idx = false := by
  intro fuel
  induction fuel with
  | zero =>
    intro idx
    rfl
  | succ fuel ih =>
    intro idx
    simp [Win.readbackLoop, h idx, ih]

theorem symPath_ne (filename uniq : String) :
    symPath filename ≠ symPath (filename ++ "." ++ uniq ++ ".newlink") := by
  intro h
  have hlen := congrArg String.length h
  have h8 : ("\\symlink" : String).length = 8 := rfl
  have h1 : ("." : String).length = 1 := rfl
  have hn : (".newlink" : String).length = 8 := rfl
  simp [symPath, String.length_append, h8, h1, hn] at hlen
  omega

/-- Bridging check for the race model: a `lock` whose first `symlink`
attempt finds the name free acquires within one iteration and installs
this process's pid as the marker payload — the `Race.step` outcome for a
process stepping from `start` with the marker absent. -/
theorem lock_fresh_success (aliveRes : Nat → Option Nat) (mypid fuel : Nat)
    (name : String) (s : PosixFS) (hfree : s name = none) :
    FilesystemLock.lock false true (posixEnv aliveRes) mypid (fuel + 1)
        { name := name } s =
      (.acquired, { name := name, locked := true, clean := some true },
       fun n => if n = name then some (toString mypid) else s n, []) := by
  simp [FilesystemLock.lock, lockLoop, posixEnv, posixSymlink, hfree]

/-- Bridging check for the race model: a `lock` that finds the name held
by a live process returns `False` within one iteration, leaving the
handle and the filesystem unchanged — the `Race.step` outcome for the
`probing` phase. -/
theorem lock_fresh_held_alive (aliveRes : Nat → Option Nat) (mypid fuel : Nat)
    (name v : String) (q : Nat) (s : PosixFS) (hheld : s name = some v)
    (hq : pyInt v = some q) (halive : aliveRes q = none) :
    FilesystemLock.lock false true (posixEnv aliveRes) mypid (fuel + 1)
        { name := name } s =
      (.notAcquired, { name := name }, s, []) := by
  simp [FilesystemLock.lock, lockLoop, posixEnv, posixSymlink, posixReadlink,
    hheld, hq, halive, EEXIST, EACCES, EIO]

/-- C1: for a fresh lock name, over every interleaved schedule of N
processes concurrently calling `acquire`, no two processes ever
simultaneously hold `locked = true`, and once every process has returned,
exactly one call returned true (the other N−1 returned false). -/
theorem c1_concurrent_acquire_exactly_one (n : Nat) (pids : Fin n → Nat) :
    (∀ (sched : List (Fin n)) (i j : Fin n), i ≠ j →
        ¬((Race.run pids (Race.init n) sched).pcs i = .done true ∧
          (Race.run pids (Race.init n) sched).pcs j = .done true)) ∧
    (∀ sched : List (Fin n), 0 < n →
        (∀ i, ∃ b, (Race.run pids (Race.init n) sched).pcs i = .done b) →
        ∃! i, (Race.run pids (Race.init n) sched).pcs i = .done true) := by
  constructor
  · rintro sched i j hij ⟨hi, hj⟩
    rcases Race.inv_run pids (Race.init n) sched (Race.inv_init pids) with
      ⟨hm, hall⟩ | ⟨i0, hm, hi0, huniq⟩
    · rw [hall i] at hi
      exact Race.PC.noConfusion hi
    · exact hij ((huniq i hi).trans (huniq j hj).symm)
  · intro sched hn hdone
    rcases Race.inv_run pids (Race.init n) sched (Race.inv_init pids) with
      ⟨hm, hall⟩ | ⟨i0, hm, hi0, huniq⟩
    · obtain ⟨b, hb⟩ := hdone ⟨0, hn⟩
      rw [hall ⟨0, hn⟩] at hb
      exact absurd hb (by simp)
    · exact ⟨i0, hi0, fun j hj => huniq j hj⟩

/-- Witness for C1 at the concrete three-process race `racePids3` under
the complete schedule `raceSched3`. -/
theorem c1_witness :
    ∃! i : Fin 3, (Race.run racePids3 (Race.init 3) raceSched3).pcs i = .done true :=
  (c1_concurrent_acquire_exactly_one 3 racePids3).2 raceSched3 (by decide) (by decide)

/-- C2: whenever `lock` returns true it has set `locked = true`, and
`clean = true` exactly when this handle never successfully deleted a
stale marker during the call (an `rmlink` that failed with `ENOENT`, or a
marker that vanished before `readlink`, does not mark uncleanliness). -/
theorem c2_success_sets_locked_and_clean {σ : Type} (w ka : Bool) (E : Env σ)
    (mypid fuel : Nat) (self : FilesystemLock) (s : σ)
    (h : FilesystemLock) (s' : σ) (evs : List Event)
    (hacq : FilesystemLock.lock w ka E mypid fuel self s = (.acquired, h, s', evs)) :
    h.locked = true ∧ (h.clean = some true ↔ Event.rmOk ∉ evs) ∧
      (h.clean = some false ↔ Event.rmOk ∈ evs) := by
  obtain ⟨hl, hc⟩ := lockLoop_clean w ka E mypid self fuel true s h s' evs hacq
  refine ⟨hl, ?_⟩
  cases hrm : hasRmOk evs with
  | true =>
    have hin : Event.rmOk ∈ evs := (hasRmOk_iff evs).mp hrm
    rw [hc, hrm]
    constructor <;> simp [hin]
  | false =>
    have hnin : Event.rmOk ∉ evs := by
      intro hmem
      rw [(hasRmOk_iff evs).mpr hmem] at hrm
      exact Bool.noConfusion hrm
    rw [hc, hrm]
    constructor <;> simp [hnin]

/-- Witness for C2: an uncontended acquisition through `envAlwaysFree`
returns true with `locked = true` and `clean = true`. -/
theorem c2_witness :
    ({ name := "n", locked := true, clean := some true } : FilesystemLock).locked = true ∧
    (({ name := "n", locked := true, clean := some true } : FilesystemLock).clean = some true ↔
      Event.rmOk ∉ ([] : List Event)) ∧
    (({ name := "n", locked := true, clean := some true } : FilesystemLock).clean = some false ↔
      Event.rmOk ∈ ([] : List Event)) :=
  c2_success_sets_locked_and_clean false true envAlwaysFree 7 1 { name := "n" } ()
    { name := "n", locked := true, clean := some true } () [] rfl

/-- C3: `unlock` on a marker whose recorded pid differs from the calling
process's pid raises the not-owner `ValueError` and leaves both the
marker and the handle's `locked` field unchanged. -/
theorem c3_unlock_not_owner (aliveRes : Nat → Option Nat) (mypid q : Nat)
    (self : FilesystemLock) (s : PosixFS) (v : String)
    (hv : s self.name = some v) (hq : pyInt v = some q) (hne : q ≠ mypid) :
    FilesystemLock.unlock (posixEnv aliveRes) mypid self s =
      (.raised .notOwner, self, s) := by
  simp [FilesystemLock.unlock, posixEnv, posixReadlink, hv, hq, hne]

/-- Witness for C3: pid 42 releasing a marker recorded for pid 7. -/
theorem c3_witness :
    FilesystemLock.unlock (posixEnv (fun _ => none)) 42
        { name := "n", locked := true, clean := some true } posixHeld7 =
      (.raised .notOwner, { name := "n", locked := true, clean := some true },
       posixHeld7) :=
  c3_unlock_not_owner (fun _ => none) 42 7
    { name := "n", locked := true, clean := some true } posixHeld7 "7"
    rfl (by decide) (by decide)
/-- Counterexample to C4 as stated: a fresh handle that never acquired,
running in the process whose pid (42) is recorded in the marker, does not
fail with the not-owner error — its `unlock` succeeds and deletes the
marker. -/
theorem c4_counterexample_same_process_release :
    (FilesystemLock.unlock (posixEnv (fun _ => none)) 42 { name := "n" }
        (fun n => if n = "n" then some "42" else none)).1 = .ok ∧
    (FilesystemLock.unlock (posixEnv (fun _ => none)) 42 { name := "n" }
        (fun n => if n = "n" then some "42" else none)).2.2 "n" = none ∧
    ({ name := "n" } : FilesystemLock).locked = false := by
  refine ⟨by decide, by decide, rfl⟩

/-- C4 (amended): `unlock` checks only that the recorded pid equals the
calling process's pid, not whether this handle acquired the lock.  A
never-acquired handle whose process is not the recorded owner fails with
the not-owner error and leaves the marker untouched; a never-acquired
handle in the recorded owner's process succeeds and deletes the marker. -/
theorem c4_release_checks_pid_only (aliveRes : Nat → Option Nat)
    (mypid q : Nat) (self : FilesystemLock) (s : PosixFS) (v : String)
    (hv : s self.name = some v) (hq : pyInt v = some q)
    (_hnever : self.locked = false) :
    (q ≠ mypid →
      FilesystemLock.unlock (posixEnv aliveRes) mypid self s =
        (.raised .notOwner, self, s)) ∧
    (q = mypid →
      (FilesystemLock.unlock (posixEnv aliveRes) mypid self s).1 = .ok ∧
      (FilesystemLock.unlock (posixEnv aliveRes) mypid self s).2.1 =
        { self with locked := false } ∧
      ∀ n, (FilesystemLock.unlock (posixEnv aliveRes) mypid self s).2.2 n =
        if n = self.name then none else s n) := by
  constructor
  · intro hne
    simp [FilesystemLock.unlock, posixEnv, posixReadlink, hv, hq, hne]
  · intro heq
    simp [FilesystemLock.unlock, posixEnv, posixReadlink, posixRmlink, hv, hq, heq]

/-- Witness for the amended C4: the same-process same-pid release
succeeds. -/
theorem c4_witness :
    (FilesystemLock.unlock (posixEnv (fun _ => none)) 7 { name := "n" }
        posixHeld7).1 = .ok :=
  ((c4_release_checks_pid_only (fun _ => none) 7 7 { name := "n" } posixHeld7 "7"
      rfl (by decide) rfl).2 rfl).1

/-- Counterexample to C5 as stated: when the null-signal probe raises
`OSError(EPERM)` on the POSIX platform, `lock` does not return false — it
propagates the permission error to the caller. -/
theorem c5_counterexample_eperm_raises :
    FilesystemLock.lock false true envHeldEperm 42 1 { name := "n" } () =
      (.raised (.osError EPERM), { name := "n" }, (), []) ∧
    (FilesystemLock.lock false true envHeldEperm 42 1 { name := "n" } ()).1 ≠
      .notAcquired := by
  refine ⟨by decide, by decide⟩

/-- C5 (amended): on the POSIX platform a permission-denied failure of
the null-signal probe propagates out of `acquire` as the `OSError(EPERM)`
exception (only `ESRCH` is absorbed), rather than being mapped to an
owner-is-alive `false` return. -/
theorem c5_eperm_propagates {σ : Type} (E : Env σ) (mypid fuel : Nat)
    (self : FilesystemLock) (s s1 s2 s3 : σ) (pidStr : String) (pid : Nat)
    (hsym : E.symlink (toString mypid) self.name s = (some EEXIST, s1))
    (hread : E.readlink self.name s1 = (.ok pidStr, s2))
    (hpid : pyInt pidStr = some pid)
    (hkill : E.kill pid s2 = (some EPERM, s3)) :
    FilesystemLock.lock false true E mypid (fuel + 1) self s =
      (.raised (.osError EPERM), self, s3, []) := by
  simp [FilesystemLock.lock, lockLoop, hsym, hread, hpid, hkill,
    EPERM, ESRCH, EEXIST, EACCES, EIO]

/-- Witness for the amended C5 at the concrete `envHeldEperm`. -/
theorem c5_witness :
    FilesystemLock.lock false true envHeldEperm 7 1 { name := "m" } () =
      (.raised (.osError EPERM), { name := "m" }, (), []) :=
  c5_eperm_propagates envHeldEperm 7 0 { name := "m" } () () () () "99999" 99999
    rfl rfl (by decide) rfl

/-- C9: on the non-POSIX platform with `kill = None`, `lock` skips the
liveness probe: whenever the marker exists and its payload is readable,
the call returns false with no reclamation attempt (empty event trace)
and an unchanged handle — even if the recorded owner is dead (the
environment's `kill` outcome is arbitrary and never consulted). -/
theorem c9_no_kill_treats_owner_alive {σ : Type} (E : Env σ)
    (mypid fuel : Nat) (self : FilesystemLock) (s s1 s2 : σ) (pidStr : String)
    (hsym : E.symlink (toString mypid) self.name s = (some EEXIST, s1))
    (hread : E.readlink self.name s1 = (.ok pidStr, s2)) :
    FilesystemLock.lock true false E mypid (fuel + 1) self s =
      (.notAcquired, self, s2, []) := by
  simp [FilesystemLock.lock, lockLoop, hsym, hread, EEXIST, EACCES, EIO]

/-- Witness for C9: `envHeldDead` records a dead owner, and the probe
would report `ESRCH`, yet with `kill = None` the lock is reported held. -/
theorem c9_witness :
    FilesystemLock.lock true false envHeldDead 42 1 { name := "n" } () =
      (.notAcquired, { name := "n" }, (), []) :=
  c9_no_kill_treats_owner_alive envHeldDead 42 0 { name := "n" } () () () "7"
    rfl rfl

/-- C10: whenever `lock` returns false or raises, the handle is returned
unchanged — `locked` and `clean` keep the values they had before the
call. -/
theorem c10_failure_leaves_handle_unchanged {σ : Type} (w ka : Bool)
    (E : Env σ) (mypid fuel : Nat) (self : FilesystemLock) (s : σ)
    (h : (FilesystemLock.lock w ka E mypid fuel self s).1 = .notAcquired ∨
      ∃ ex, (FilesystemLock.lock w ka E mypid fuel self s).1 = .raised ex) :
    (FilesystemLock.lock w ka E mypid fuel self s).2.1 = self := by
  rcases lockLoop_frame w ka E mypid self fuel true s with hacq | hself
  · rcases h with h | ⟨ex, h⟩ <;>
      simp only [FilesystemLock.lock] at h <;>
      rw [hacq] at h <;>
      exact LockResult.noConfusion h
  · exact hself

/-- Witness for C10: a fresh handle whose acquisition fails against a
held lock still has `locked = false` and `clean = none` afterwards. -/
theorem c10_witness :
    (FilesystemLock.lock false true (posixEnv (fun _ => none)) 42 1
        { name := "n" } posixHeld7).2.1 = { name := "n" } :=
  c10_failure_leaves_handle_unchanged false true (posixEnv (fun _ => none)) 42 1
    { name := "n" } posixHeld7 (Or.inl (by decide))
/-- Counterexample to C6 as stated: when the read-back loop of the
emulated `symlink` times out, the temporary directory is not removed —
it is left orphaned on disk while `TimeoutError` is raised. -/
theorem c6_counterexample_orphan_tempdir :
    (Win.symlink "1" "lck" "9" (fun _ => "") winEmpty).1 = some .timeout ∧
    (Win.symlink "1" "lck" "9" (fun _ => "") winEmpty).2.dirs "lck.9.newlink" = true := by
  have hne : ("" : String) ≠ "1" := by decide
  have hloop := readbackLoop_false "1" (fun _ => "") (fun _ => hne) 63360 0
  have hname : ("lck" ++ "." ++ "9" ++ ".newlink" : String) = "lck.9.newlink" := rfl
  constructor
  · simp [Win.symlink, winEmpty, hloop]
  · simp [Win.symlink, winEmpty, hloop, hname]

/-- C6 (amended): when the bounded read-back loop exceeds its ceiling,
the emulated `symlink` raises `TimeoutError` after removing only the
payload file; the temporary directory is left behind (the cleanup is not
complete). -/
theorem c6_timeout_removes_file_leaves_dir (value filename uniq : String)
    (readSeq : Nat → String) (fs : WinFS)
    (hmk : fs.dirs (filename ++ "." ++ uniq ++ ".newlink") = false)
    (hmk2 : fs.files (filename ++ "." ++ uniq ++ ".newlink") = none)
    (hv : value ≠ "")
    (hrb : ∀ k, readSeq k ≠ value) :
    (Win.symlink value filename uniq readSeq fs).1 = some .timeout ∧
    (Win.symlink value filename uniq readSeq fs).2.files
        (symPath (filename ++ "." ++ uniq ++ ".newlink")) = none ∧
    (Win.symlink value filename uniq readSeq fs).2.dirs
        (filename ++ "." ++ uniq ++ ".newlink") = true := by
  have hloop := readbackLoop_false value readSeq hrb 63360 0
  refine ⟨?_, ?_, ?_⟩ <;> simp [Win.symlink, hmk, hmk2, hv, hloop]

/-- Witness for the amended C6 at a concrete never-matching read-back. -/
theorem c6_witness :
    (Win.symlink "1" "lck" "9" (fun _ => "x") winEmpty).1 = some .timeout := by
  have hxne : ("x" : String) ≠ "1" := by decide
  exact (c6_timeout_removes_file_leaves_dir "1" "lck" "9" (fun _ => "x") winEmpty
    rfl rfl (by decide) (fun _ => hxne)).1

/-- C7: on both marker implementations, `create(p, v)` followed by
`read(p)` returns exactly `v`, and after `delete(p)` a `read(p)` fails
with `NotFound` (`ENOENT`). -/
theorem c7_roundtrip (p v u : String) (rs : Nat → String) (s : PosixFS)
    (fs : WinFS) :
    ((posixSymlink v p s).1 = none →
      posixReadlink p (posixSymlink v p s).2 = .ok v) ∧
    posixReadlink p (posixRmlink p s).2 = .error ENOENT ∧
    ((Win.symlink v p u rs fs).1 = none →
      Win.readlink p (Win.symlink v p u rs fs).2 = .ok v) ∧
    Win.readlink p (Win.rmlink p fs).2 = .error ENOENT := by
  refine ⟨?_, ?_, ?_, ?_⟩
  · intro h
    cases hsp : s p with
    | some w => simp [posixSymlink, hsp] at h
    | none => simp [posixSymlink, posixReadlink, hsp]
  · cases hsp : s p with
    | some w => simp [posixRmlink, posixReadlink, hsp]
    | none => simp [posixRmlink, posixReadlink, hsp]
  · intro h
    rcases hw : Win.symlink v p u rs fs with ⟨o, fs1⟩
    rw [hw] at h
    simp only at h
    subst h
    simp only [Win.symlink] at hw
    repeat' split at hw
    all_goals injection hw with h1 h2
    all_goals try exact Option.noConfusion h1
    all_goals rw [← h2]
    all_goals simp [Win.readlink, symPath_ne p u]
  · cases hf : fs.files (symPath p) with
    | none => simp [Win.rmlink, Win.readlink, hf]
    | some w =>
      simp only [Win.rmlink, hf]
      split <;> simp [Win.readlink]

/-- Witness for C7: the round trip at concrete inputs on both
implementations. -/
theorem c7_witness :
    posixReadlink "p" (posixSymlink "1234" "p" posixEmpty).2 = .ok "1234" ∧
    Win.readlink "p" (Win.symlink "1234" "p" "9" (fun _ => "1234") winEmpty).2 =
      .ok "1234" :=
  ⟨(c7_roundtrip "p" "1234" "9" (fun _ => "1234") posixEmpty winEmpty).1 rfl,
   (c7_roundtrip "p" "1234" "9" (fun _ => "1234") posixEmpty winEmpty).2.2.1
     (by decide)⟩
/-- C8: `isLocked` builds a fresh handle and attempts `lock`: on a free
lock it acquires (really mutating the filesystem — the mid-call state
holds this process's marker), releases, and reports not held with the
marker again absent; on a lock held by a live owner it reports held with
the filesystem unchanged. -/
theorem c8_isLocked_queries_by_acquiring (aliveRes : Nat → Option Nat)
    (mypid fuel : Nat) (name : String) (s : PosixFS)
    (hparse : pyInt (toString mypid) = some mypid) :
    (s name = none →
      (isLocked false true (posixEnv aliveRes) mypid (fuel + 1) name s).1 = .held false ∧
      (∀ n, (isLocked false true (posixEnv aliveRes) mypid (fuel + 1) name s).2 n =
        if n = name then none else s n) ∧
      (FilesystemLock.lock false true (posixEnv aliveRes) mypid (fuel + 1)
          { name := name } s).2.2.1 name = some (toString mypid)) ∧
    (∀ v q, s name = some v → pyInt v = some q → aliveRes q = none →
      isLocked false true (posixEnv aliveRes) mypid (fuel + 1) name s =
        (.held true, s)) := by
  constructor
  · intro hfree
    have hlock := lock_fresh_success aliveRes mypid fuel name s hfree
    refine ⟨?_, ?_, ?_⟩
    · simp only [isLocked]
      rw [hlock]
      simp [FilesystemLock.unlock, posixEnv, posixReadlink, posixRmlink, hparse]
    · intro n
      simp only [isLocked]
      rw [hlock]
      by_cases hn : n = name <;>
        simp [FilesystemLock.unlock, posixEnv, posixReadlink, posixRmlink,
          hparse, hn]
    · simp [hlock]
  · intro v q hv hq halive
    have hlock := lock_fresh_held_alive aliveRes mypid fuel name v q s hv hq halive
    simp only [isLocked]
    rw [hlock]

/-- Witness for C8: querying a free lock reports not held. -/
theorem c8_witness :
    (isLocked false true (posixEnv (fun _ => none)) 42 1 "n" posixEmpty).1 =
      .held false :=
  ((c8_isLocked_queries_by_acquiring (fun _ => none) 42 0 "n" posixEmpty
      (by decide)).1 rfl).1
end Lockfile
